import Mathlib

/-!
Verification of the OpenAPI → OpenAI-function converter
(`openapi-to-openai-function-converter.py`).

The parsed OpenAPI document is a dynamically typed tree of Python values
(dicts, lists, strings, numbers, booleans).  We embed that tree as the
inductive type `Node`, and each operation the converter performs on the
tree (`d[k]`, `d.get(k, default)`, `k in d`, `.items()`, iteration,
truthiness, dict assignment, `dict.update`, `list.extend`) as a Lean
function with Python's semantics, including the exceptions each raises
(`KeyError`, `TypeError`, `AttributeError`, `IndexError`).  Fallible
steps live in `Except PyErr`.
-/

set_option autoImplicit false

namespace OpenApiConv

/-- A parsed JSON/YAML value: the dynamic value tree the converter walks.
Mapping keys are strings (the OpenAPI object model). -/
inductive Node where
  | str  : String → Node
  | num  : Int → Node
  | bool : Bool → Node
  | arr  : List Node → Node
  | obj  : List (String × Node) → Node
  deriving Repr

mutual

/-- Structural equality of `Node`s (Python `==` on these value trees,
minus Python's numeric/boolean conflation, which the converter never
relies on). -/
def Node.beq : Node → Node → Bool
  | .str a, .str b => a == b
  | .num a, .num b => a == b
  | .bool a, .bool b => a == b
  | .arr a, .arr b => beqNodeList a b
  | .obj a, .obj b => beqNodeObj a b
  | _, _ => false

/-- Elementwise `Node.beq` on lists. -/
def beqNodeList : List Node → List Node → Bool
  | [], [] => true
  | x :: xs, y :: ys => Node.beq x y && beqNodeList xs ys
  | _, _ => false

/-- Entrywise `Node.beq` on string-keyed association lists. -/
def beqNodeObj : List (String × Node) → List (String × Node) → Bool
  | [], [] => true
  | (k, v) :: xs, (l, w) :: ys => k == l && Node.beq v w && beqNodeObj xs ys
  | _, _ => false

end

instance : BEq Node := ⟨Node.beq⟩

mutual

theorem Node.beq_refl : ∀ a : Node, Node.beq a a = true
  | .str a => by simp [Node.beq]
  | .num a => by simp [Node.beq]
  | .bool a => by simp [Node.beq]
  | .arr l => by simp only [Node.beq]; exact beqNodeList_refl l
  | .obj l => by simp only [Node.beq]; exact beqNodeObj_refl l

theorem beqNodeList_refl : ∀ l : List Node, beqNodeList l l = true
  | [] => rfl
  | x :: xs => by
    simp only [beqNodeList, Bool.and_eq_true]
    exact ⟨Node.beq_refl x, beqNodeList_refl xs⟩

theorem beqNodeObj_refl : ∀ l : List (String × Node), beqNodeObj l l = true
  | [] => rfl
  | (k, v) :: xs => by
    simp only [beqNodeObj, Bool.and_eq_true]
    exact ⟨⟨by simp, Node.beq_refl v⟩, beqNodeObj_refl xs⟩

end

mutual

theorem Node.beq_eq : ∀ a b : Node, Node.beq a b = true → a = b
  | .str a, .str b => by
    intro h
    simp only [Node.beq, beq_iff_eq] at h
    rw [h]
  | .num a, .num b => by
    intro h
    simp only [Node.beq, beq_iff_eq] at h
    rw [h]
  | .bool a, .bool b => by
    intro h
    simp only [Node.beq, beq_iff_eq] at h
    rw [h]
  | .arr a, .arr b => by
    intro h
    simp only [Node.beq] at h
    rw [beqNodeList_eq a b h]
  | .obj a, .obj b => by
    intro h
    simp only [Node.beq] at h
    rw [beqNodeObj_eq a b h]
  | .str _, .num _ => by simp [Node.beq]
  | .str _, .bool _ => by simp [Node.beq]
  | .str _, .arr _ => by simp [Node.beq]
  | .str _, .obj _ => by simp [Node.beq]
  | .num _, .str _ => by simp [Node.beq]
  | .num _, .bool _ => by simp [Node.beq]
  | .num _, .arr _ => by simp [Node.beq]
  | .num _, .obj _ => by simp [Node.beq]
  | .bool _, .str _ => by simp [Node.beq]
  | .bool _, .num _ => by simp [Node.beq]
  | .bool _, .arr _ => by simp [Node.beq]
  | .bool _, .obj _ => by simp [Node.beq]
  | .arr _, .str _ => by simp [Node.beq]
  | .arr _, .num _ => by simp [Node.beq]
  | .arr _, .bool _ => by simp [Node.beq]
  | .arr _, .obj _ => by simp [Node.beq]
  | .obj _, .str _ => by simp [Node.beq]
  | .obj _, .num _ => by simp [Node.beq]
  | .obj _, .bool _ => by simp [Node.beq]
  | .obj _, .arr _ => by simp [Node.beq]

theorem beqNodeList_eq : ∀ a b : List Node, beqNodeList a b = true → a = b
  | [], [] => fun _ => rfl
  | [], _ :: _ => by simp [beqNodeList]
  | _ :: _, [] => by simp [beqNodeList]
  | x :: xs, y :: ys => by
    intro h
    simp only [beqNodeList, Bool.and_eq_true] at h
    rw [Node.beq_eq x y h.1, beqNodeList_eq xs ys h.2]

theorem beqNodeObj_eq :
    ∀ a b : List (String × Node), beqNodeObj a b = true → a = b
  | [], [] => fun _ => rfl
  | [], _ :: _ => by simp [beqNodeObj]
  | _ :: _, [] => by simp [beqNodeObj]
  | (k, v) :: xs, (l, w) :: ys => by
    intro h
    simp only [beqNodeObj, Bool.and_eq_true] at h
    obtain ⟨⟨h1, h2⟩, h3⟩ := h
    rw [show k = l by simpa using h1, Node.beq_eq v w h2,
      beqNodeObj_eq xs ys h3]

end

instance : LawfulBEq Node where
  eq_of_beq h := Node.beq_eq _ _ h
  rfl := Node.beq_refl _

instance : DecidableEq Node := fun a b =>
  decidable_of_iff (Node.beq a b = true)
    ⟨Node.beq_eq a b, fun h => h ▸ Node.beq_refl a⟩

/-- Substring test on character lists (Python `needle in haystack` for
strings). -/
def listInfix (needle : List Char) : List Char → Bool
  | [] => needle.isEmpty
  | c :: rest => List.isPrefixOf needle (c :: rest) || listInfix needle rest

/-- The exception classes the converter's tree operations can raise. -/
inductive PyErr where
  | keyError : PyErr
  | typeError : PyErr
  | attributeError : PyErr
  | indexError : PyErr
  deriving DecidableEq, Repr

/-- First-match association lookup with string keys (the read side of a
parsed document mapping). -/
def lookupStr : List (String × Node) → String → Option Node
  | [], _ => none
  | p :: rest, k => if p.1 == k then some p.2 else lookupStr rest k

/-- Python `d[k]` with a string subscript: mapping lookup (`KeyError` when
absent); subscripting a list or a scalar by a string is a `TypeError`
(`str[str]` is also a `TypeError` in Python). -/
def Node.getKey : Node → String → Except PyErr Node
  | .obj kvs, k =>
    match lookupStr kvs k with
    | some v => .ok v
    | none => .error .keyError
  | _, _ => .error .typeError

/-- Python `d.get(k, default)`: requires a dict receiver (anything else has
no `.get` attribute). -/
def Node.dictGet (n : Node) (k : String) (dflt : Node) : Except PyErr Node :=
  match n with
  | .obj kvs => .ok ((lookupStr kvs k).getD dflt)
  | _ => .error .attributeError

/-- Python `d.get(k)` (no default): `None` when absent, modelled as `none`. -/
def Node.getOpt (n : Node) (k : String) : Except PyErr (Option Node) :=
  match n with
  | .obj kvs => .ok (lookupStr kvs k)
  | _ => .error .attributeError

/-- Python `d.items()` (also `.keys()` on the same receiver): requires a
dict. -/
def Node.asObj : Node → Except PyErr (List (String × Node))
  | .obj kvs => .ok kvs
  | _ => .error .attributeError

/-- Coerce to a string where Python would call a `str` method on the value
(e.g. `ref.lstrip` inside `resolve_ref`, or `str.join` over the collected
names): any non-string raises. -/
def Node.asStr : Node → Except PyErr String
  | .str s => .ok s
  | _ => .error .typeError

/-- Python `v[i]` with an integer subscript. -/
def Node.getIndex (n : Node) (i : Nat) : Except PyErr Node :=
  match n with
  | .arr l =>
    match l.get? i with
    | some v => .ok v
    | none => .error .indexError
  | .str s =>
    match s.data.get? i with
    | some c => .ok (.str ⟨[c]⟩)
    | none => .error .indexError
  | .obj _ => .error .keyError
  | _ => .error .typeError

/-- Python truthiness of a value. -/
def Node.truthy : Node → Bool
  | .bool b => b
  | .num n => n != 0
  | .str s => !s.data.isEmpty
  | .arr l => !l.isEmpty
  | .obj kvs => !kvs.isEmpty

/-- Python `k in v` for a string `k`: key test on dicts, membership on
lists, substring test on strings, `TypeError` otherwise. -/
def pyContains (n : Node) (k : String) : Except PyErr Bool :=
  match n with
  | .obj kvs => .ok (kvs.any (fun p => p.1 == k))
  | .arr l => .ok (l.any (fun v => v == Node.str k))
  | .str s => .ok (listInfix k.data s.data)
  | _ => .error .typeError

/-- Python iteration over a value (`for x in v`): list elements, dict keys,
the characters of a string (as 1-character strings). -/
def pyIterate : Node → Except PyErr (List Node)
  | .arr l => .ok l
  | .obj kvs => .ok (kvs.map (fun p => Node.str p.1))
  | .str s => .ok (s.data.map (fun c => Node.str ⟨[c]⟩))
  | _ => .error .typeError

/-- Python dict assignment `d[k] = v` for an already-hashable key: replace
the value in place when the key is present (keeping its position),
otherwise append the new entry.  The converter's built dicts are keyed by
whatever `param['name']` is, hence keys are `Node`s. -/
def dictSet (d : List (Node × Node)) (k v : Node) : List (Node × Node) :=
  if d.any (fun p => p.1 == k) then
    d.map (fun p => if p.1 == k then (p.1, v) else p)
  else
    d ++ [(k, v)]

/-- Python dict assignment `d[k] = v` including the hashability check:
assigning with a list or dict key raises `TypeError`. -/
def dictSetChecked (d : List (Node × Node)) (k v : Node) :
    Except PyErr (List (Node × Node)) :=
  match k with
  | .arr _ => .error .typeError
  | .obj _ => .error .typeError
  | _ => .ok (dictSet d k v)

/-- Python `d.update(other)` for a dict argument: set each of `other`'s
entries in iteration order (keys of an existing dict are already
hashable). -/
def pyUpdate (d : List (Node × Node)) (other : List (Node × Node)) :
    List (Node × Node) :=
  other.foldl (fun acc kv => dictSet acc kv.1 kv.2) d

/-- First-match lookup in a built dict (Python `d[k]` read side). -/
def pyLookup : List (Node × Node) → Node → Option Node
  | [], _ => none
  | p :: rest, k => if p.1 == k then some p.2 else pyLookup rest k

/-- Python `s.lstrip(chars)`: drop leading characters belonging to the
given character set (NOT prefix removal). -/
def pyLStrip (cs : List Char) (s : String) : String :=
  ⟨s.data.dropWhile (fun c => cs.contains c)⟩

/-- Python `s.split(sep)` for a one-character separator: splits at every
occurrence and keeps empty chunks; `"".split(sep) == [""]`. -/
def splitChar (c : Char) : List Char → List (List Char)
  | [] => [[]]
  | x :: xs =>
    if x == c then [] :: splitChar c xs
    else
      match splitChar c xs with
      | [] => [[x]]
      | y :: ys => (x :: y) :: ys

/-- Python `s.split('/')` on a string. -/
def pySplit (c : Char) (s : String) : List String :=
  (splitChar c s.data).map (fun l => ⟨l⟩)

/-- `resolve_ref(ref, spec)` (source lines 14–19):
`keys = ref.lstrip('#/').split('/')`, then index the document by each key
in order. -/
def resolve_ref (ref : String) (spec : Node) : Except PyErr Node :=
  (pySplit '/' (pyLStrip ['#', '/'] ref)).foldlM
    (fun result key => result.getKey key) spec

/-- The recurring source pattern `if '$ref' in x: x = resolve_ref(x['$ref'], spec)`
(lines 25–26, 65–66, 69–70, 83–84, 88–89).  `resolve_ref` calls `.lstrip`
on the reference value, so a non-string reference raises. -/
def resolveIfRef (spec node : Node) : Except PyErr Node := do
  let b ← pyContains node "$ref"
  if b then do
    let r ← node.getKey "$ref"
    let s ← r.asStr
    resolve_ref s spec
  else
    pure node

/-- The per-property flattening inside `extract_properties` (source lines
36–41): resolve the property's `$ref` once, then build
`{"type": prop_type, "description": ...}` with defaults `'object'` and
`''`. -/
def propDesc (spec pd0 : Node) : Except PyErr Node := do
  let pd ← resolveIfRef spec pd0
  let prop_type ← pd.dictGet "type" (Node.str "object")
  let dsc ← pd.dictGet "description" (Node.str "")
  pure (Node.obj [("type", prop_type), ("description", dsc)])

/-- One iteration of the property loop of `extract_properties` (source
lines 35–42): flatten the property and assign
`properties[prop_name] = ...` (string keys are always hashable). -/
def extractStep (spec : Node) (acc : List (Node × Node)) (pn : String × Node) :
    Except PyErr (List (Node × Node)) := do
  let v ← propDesc spec pn.2
  pure (dictSet acc (Node.str pn.1) v)

/-- Source lines 28–31: `props = schema['properties']` when the key test
succeeded, else the empty dict. -/
def propsOrEmpty (hasProps : Bool) (schema : Node) : Except PyErr Node :=
  if hasProps then schema.getKey "properties" else pure (Node.obj [])

/-- `extract_properties(schema, openapi_spec)` (source lines 21–44):
resolve a top-level `$ref` once, read `properties` (default `{}`) and
`required` (default `[]`), and flatten each property via `extractStep`.
Returns the built properties dict and the raw `required` value. -/
def extract_properties (schema0 spec : Node) :
    Except PyErr (List (Node × Node) × Node) := do
  let schema ← resolveIfRef spec schema0
  let hasProps ← pyContains schema "properties"
  let props ← propsOrEmpty hasProps schema
  let required ← schema.dictGet "required" (Node.arr [])
  let propsItems ← props.asObj
  let properties ← propsItems.foldlM (extractStep spec) []
  pure (properties, required)

/-- One iteration of the parameter loop (source lines 64–75, 77): resolve
the parameter's `$ref`, read its `name`, resolve its `schema` (default
`{}`), derive `type` (default `'string'`) and `description` (default
`''`), and evaluate the `required` flag's truthiness. -/
def handleParam (spec param0 : Node) : Except PyErr (Node × Node × Bool) := do
  let param ← resolveIfRef spec param0
  let param_name ← param.getKey "name"
  let param_schema0 ← param.dictGet "schema" (Node.obj [])
  let param_schema ← resolveIfRef spec param_schema0
  let param_type ← param_schema.dictGet "type" (Node.str "string")
  let dsc ← param.dictGet "description" (Node.str "")
  let param_details := Node.obj [("type", param_type), ("description", dsc)]
  let requiredFlag ← param.dictGet "required" (Node.bool false)
  pure (param_name, param_details, requiredFlag.truthy)

/-- One iteration of the parameter loop's state update (source lines
76–78): `properties[param_name] = param_details` (hashability-checked
dict assignment) and the conditional `required.append`. -/
def paramStep (spec : Node) (acc : List (Node × Node) × List Node)
    (param : Node) : Except PyErr (List (Node × Node) × List Node) := do
  let t ← handleParam spec param
  let props ← dictSetChecked acc.1 t.1 t.2.1
  pure (props, if t.2.2 then acc.2 ++ [t.1] else acc.2)

/-- The parameter loop (source lines 64–78): fold `paramStep` over the raw
parameter list. -/
def processParams (spec : Node) (params : List Node)
    (props0 : List (Node × Node)) (req0 : List Node) :
    Except PyErr (List (Node × Node) × List Node) :=
  params.foldlM (paramStep spec) (props0, req0)

/-- One iteration of the content-type loop (source lines 86–92): read the
entry's `schema`, resolve its `$ref`, flatten via `extract_properties`,
and iterate the returned `required` value (Python `list.extend`). -/
def contentStep (spec schema_obj : Node) :
    Except PyErr (List (Node × Node) × List Node) := do
  let schema0 ← schema_obj.getKey "schema"
  let schema ← resolveIfRef spec schema0
  let pr ← extract_properties schema spec
  let reqList ← pyIterate pr.2
  pure (pr.1, reqList)

/-- One iteration of the content-type loop's state update (source lines
91–92): `properties.update(...)` and `required.extend(...)`. -/
def bodyStep (spec : Node) (acc : List (Node × Node) × List Node)
    (it : String × Node) : Except PyErr (List (Node × Node) × List Node) := do
  let pr ← contentStep spec it.2
  pure (pyUpdate acc.1 pr.1, acc.2 ++ pr.2)

/-- The content-type loop (source lines 86–92): fold `bodyStep` over the
content map entries in iteration order. -/
def contentFold (spec : Node) (items : List (String × Node))
    (acc0 : List (Node × Node) × List Node) :
    Except PyErr (List (Node × Node) × List Node) :=
  items.foldlM (bodyStep spec) acc0

/-- The request-body section (source lines 81–92): if `requestBody` is
present, resolve its `$ref`, read its `content` (a `KeyError` when
absent), and run the content-type loop over `content.items()`. -/
def processBody (spec details : Node)
    (props : List (Node × Node)) (req : List Node) :
    Except PyErr (List (Node × Node) × List Node) := do
  let hasRB ← pyContains details "requestBody"
  if hasRB then do
    let rb0 ← details.getKey "requestBody"
    let rb ← resolveIfRef spec rb0
    let content ← rb.getKey "content"
    let items ← content.asObj
    contentFold spec items (props, req)
  else
    pure (props, req)

/-- The function descriptor built per operation (source lines 52–60 and
the mutations through line 92).  The fixed dict shell
`{"name": ..., "description": ..., "parameters": {"type": "object",
"properties": ..., "required": ...}}` is represented by its four varying
components; `properties` is the built dict (keyed by whatever
`param['name']` was) and `required` the built list. -/
structure FunctionDesc where
  name : Node
  description : Node
  properties : List (Node × Node)
  required : List Node
  deriving Repr, DecidableEq

/-- The data interpolated into one generated stub (source lines 94–115):
the textual `function_code` is a fixed template over exactly these
components — the stub name, the three name groups joined into the
signature, the first server's URL and the raw path template making up the
`url` line, and the POST-versus-GET branch. -/
structure Stub where
  funcName : Node
  pathParams : List String
  queryParams : List String
  bodyParams : List String
  serverUrl : Node
  path : String
  isPost : Bool
  deriving Repr, DecidableEq

/-- One step of the list comprehensions on source lines 96–97:
`param.get('in')` (an `AttributeError` on a non-dict), compare with the
wanted kind, and on a match read `param['name']`. -/
def stubFilterStep (inKind : String) (acc : List Node) (p : Node) :
    Except PyErr (List Node) := do
  let iv ← p.getOpt "in"
  if iv == some (Node.str inKind) then do
    let nm ← p.getKey "name"
    pure (acc ++ [nm])
  else
    pure acc

/-- The list comprehensions on source lines 96–97 applied to the raw
(unresolved) parameter list. -/
def stubParamsFilter (inKind : String) (params : List Node) :
    Except PyErr (List Node) :=
  params.foldlM (stubFilterStep inKind) []

/-- Source line 98: the raw chained
`details.get('requestBody', {}).get('content', {}).get('application/json', {}).get('schema', {}).get('properties', {})`
— no `$ref` resolution anywhere along the chain. -/
def rawBodyProps (details : Node) : Except PyErr Node := do
  let rb ← details.dictGet "requestBody" (Node.obj [])
  let c ← rb.dictGet "content" (Node.obj [])
  let aj ← c.dictGet "application/json" (Node.obj [])
  let sch ← aj.dictGet "schema" (Node.obj [])
  sch.dictGet "properties" (Node.obj [])

/-- The stub-generation section (source lines 94–115): re-read
`operationId`, filter the raw parameter list for path and query names,
read the raw JSON body properties, string-check every joined name
(`', '.join` raises on non-strings), look up
`openapi_spec['servers'][0]['url']`, and pick POST exactly when the raw
body-properties dict is truthy. -/
def stubStage (spec : Node) (path : String) (details : Node) :
    Except PyErr Stub := do
  let func_name ← details.getKey "operationId"
  let params0 ← details.dictGet "parameters" (Node.arr [])
  let plist ← pyIterate params0
  let path_params ← stubParamsFilter "path" plist
  let query_params ← stubParamsFilter "query" plist
  let rbp ← rawBodyProps details
  let rbKvs ← rbp.asObj
  let ppS ← path_params.mapM Node.asStr
  let qpS ← query_params.mapM Node.asStr
  let servers ← spec.getKey "servers"
  let s0 ← servers.getIndex 0
  let url ← s0.getKey "url"
  pure { funcName := func_name, pathParams := ppS, queryParams := qpS,
         bodyParams := rbKvs.map (·.1), serverUrl := url, path := path,
         isPost := rbp.truthy }

/-- Source lines 63–78: the parameter section — when the `parameters` key
is present, iterate `details['parameters']` through the parameter loop,
otherwise leave the empty initial state. -/
def paramsStage (spec details : Node) (hasParams : Bool) :
    Except PyErr (List (Node × Node) × List Node) :=
  if hasParams then do
    let ps ← details.getKey "parameters"
    let pl ← pyIterate ps
    processParams spec pl [] []
  else
    pure ([], [])

/-- One full iteration of the operation loop (source lines 52–118): build
the function descriptor (operationId, summary, parameter loop,
request-body section) and the corresponding stub. -/
def processOp (spec : Node) (path : String) (details : Node) :
    Except PyErr (FunctionDesc × Stub) := do
  let name ← details.getKey "operationId"
  let description ← details.dictGet "summary" (Node.str "")
  let hasParams ← pyContains details "parameters"
  let pr ← paramsStage spec details hasParams
  let pr2 ← processBody spec details pr.1 pr.2
  let stub ← stubStage spec path details
  pure ({ name := name, description := description,
          properties := pr2.1, required := pr2.2 }, stub)

/-- One iteration of the method loop (source lines 51–118): process the
operation and append its function descriptor and stub (lines 116–118). -/
def opStep (spec : Node) (path : String)
    (acc : List FunctionDesc × List Stub) (md : String × Node) :
    Except PyErr (List FunctionDesc × List Stub) := do
  let fs ← processOp spec path md.2
  pure (acc.1 ++ [fs.1], acc.2 ++ [fs.2])

/-- One iteration of the path loop (source lines 50–51): iterate the
path's methods mapping. -/
def pathStep (spec : Node) (acc : List FunctionDesc × List Stub)
    (pm : String × Node) : Except PyErr (List FunctionDesc × List Stub) := do
  let mkvs ← pm.2.asObj
  mkvs.foldlM (opStep spec pm.1) acc

/-- `transform_to_openai_format(openapi_spec)` (source lines 46–120):
iterate `openapi_spec['paths'].items()`, then each path's methods, and
append one function descriptor and one stub per operation. -/
def transform_to_openai_format (spec : Node) :
    Except PyErr (List FunctionDesc × List Stub) := do
  let pathsN ← spec.getKey "paths"
  let pathsKvs ← pathsN.asObj
  pathsKvs.foldlM (pathStep spec) ([], [])

/-- One path's contribution to the operation enumeration. -/
def collectStep (acc : List (String × String × Node)) (pm : String × Node) :
    Except PyErr (List (String × String × Node)) := do
  let mkvs ← pm.2.asObj
  pure (acc ++ mkvs.map (fun md => (pm.1, md.1, md.2)))

/-- The operation enumeration underlying the two nested loops of
`transform_to_openai_format`: every `(path, method, details)` triple in
document traversal order (paths in document order, methods within each
path in document order). -/
def collectOps (spec : Node) : Except PyErr (List (String × String × Node)) := do
  let pathsN ← spec.getKey "paths"
  let pathsKvs ← pathsN.asObj
  pathsKvs.foldlM collectStep []

/-! Helper lemmas about the `Except` monad and the list operations the
embedding uses. -/

section Helpers

variable {ε α β γ : Type}

@[simp] theorem exPure (a : α) : (pure a : Except ε α) = Except.ok a := rfl

@[simp] theorem exBind_ok (a : α) (f : α → Except ε β) :
    (Except.ok a >>= f) = f a := rfl

@[simp] theorem exBind_error (e : ε) (f : α → Except ε β) :
    ((Except.error e : Except ε α) >>= f) = Except.error e := rfl

theorem exBind_eq_ok {x : Except ε α} {f : α → Except ε β} {b : β}
    (h : x >>= f = Except.ok b) :
    ∃ a, x = Except.ok a ∧ f a = Except.ok b := by
  cases x with
  | ok a => exact ⟨a, rfl, h⟩
  | error e => simp at h

theorem splitChar_no_sep (c : Char) (xs : List Char) (h : c ∉ xs) :
    splitChar c xs = [xs] := by
  induction xs with
  | nil => rfl
  | cons x t ih =>
    have hx : (x == c) = false := by
      simp only [beq_eq_false_iff_ne]
      intro he
      exact h (he ▸ List.mem_cons_self x t)
    have ht : c ∉ t := fun hm => h (List.mem_cons_of_mem _ hm)
    simp [splitChar, hx, ih ht]

theorem splitChar_append_sep (c : Char) (xs ys : List Char) (h : c ∉ xs) :
    splitChar c (xs ++ c :: ys) = xs :: splitChar c ys := by
  induction xs with
  | nil => simp [splitChar]
  | cons x t ih =>
    have hx : (x == c) = false := by
      simp only [beq_eq_false_iff_ne]
      intro he
      exact h (he ▸ List.mem_cons_self x t)
    have ht : c ∉ t := fun hm => h (List.mem_cons_of_mem _ hm)
    simp only [List.cons_append, splitChar, hx, Bool.false_eq_true,
      if_false]
    rw [List.append_eq, ih ht]

theorem pyLookup_nil (k : Node) : pyLookup [] k = none := rfl

theorem pyLookup_eq_none_iff (P : List (Node × Node)) (k : Node) :
    pyLookup P k = none ↔ ∀ p ∈ P, p.1 ≠ k := by
  induction P with
  | nil => simp [pyLookup]
  | cons p P ih =>
    cases hb : (p.1 == k) with
    | true =>
      have hpk : p.1 = k := eq_of_beq hb
      simp [pyLookup, hb, hpk]
    | false =>
      have hpk : p.1 ≠ k := by
        intro he
        simp [he] at hb
      simp [pyLookup, hb, ih, hpk]

theorem pyLookup_append (P Q : List (Node × Node)) (k : Node) :
    pyLookup (P ++ Q) k
      = match pyLookup P k with
        | some v => some v
        | none => pyLookup Q k := by
  induction P with
  | nil => simp [pyLookup]
  | cons p P ih =>
    cases hb : (p.1 == k) with
    | true => simp [pyLookup, hb]
    | false => simp [pyLookup, hb, ih]

theorem subst_lookup_ne (d : List (Node × Node)) (k q v : Node) (h : q ≠ k) :
    pyLookup (d.map (fun r => if r.1 == q then (r.1, v) else r)) k
      = pyLookup d k := by
  induction d with
  | nil => rfl
  | cons p d ih =>
    rw [List.map_cons]
    cases hb : (p.1 == q) with
    | true =>
      have hpq : p.1 = q := eq_of_beq hb
      have hk : (p.1 == k) = false := by simp [hpq, h]
      simp only [pyLookup, hb, if_true, hk, Bool.false_eq_true, if_false]
      exact ih
    | false =>
      simp only [pyLookup, hb, Bool.false_eq_true, if_false]
      rw [ih]

theorem subst_lookup_self (d : List (Node × Node)) (k v : Node)
    (hany : d.any (fun p => p.1 == k) = true) :
    pyLookup (d.map (fun r => if r.1 == k then (r.1, v) else r)) k = some v := by
  induction d with
  | nil => simp at hany
  | cons p d ih =>
    rw [List.any_cons] at hany
    cases hb : (p.1 == k) with
    | true => simp [pyLookup, hb]
    | false =>
      rw [hb] at hany
      simp only [Bool.false_or] at hany
      simp only [pyLookup, hb, Bool.false_eq_true, if_false]
      exact ih hany

theorem pyLookup_dictSet_self (d : List (Node × Node)) (k v : Node) :
    pyLookup (dictSet d k v) k = some v := by
  unfold dictSet
  cases hany : d.any (fun p => p.1 == k) with
  | true =>
    simp only [if_true]
    exact subst_lookup_self d k v hany
  | false =>
    simp only [Bool.false_eq_true, if_false]
    have hfd : pyLookup d k = none := by
      rw [pyLookup_eq_none_iff]
      intro x hx hxk
      rw [List.any_eq_false] at hany
      exact (by simpa [hxk] using hany x hx)
    rw [pyLookup_append, hfd]
    simp [pyLookup]

theorem pyLookup_dictSet_ne (d : List (Node × Node)) (k q v : Node)
    (h : q ≠ k) : pyLookup (dictSet d q v) k = pyLookup d k := by
  unfold dictSet
  cases hany : d.any (fun p => p.1 == q) with
  | true =>
    simp only [if_true]
    exact subst_lookup_ne d k q v h
  | false =>
    simp only [Bool.false_eq_true, if_false]
    have hq : (q == k) = false := by simp [h]
    rw [pyLookup_append]
    cases hd : pyLookup d k <;> simp [pyLookup, hq]

theorem dictSet_keys (d : List (Node × Node)) (k v : Node) :
    (dictSet d k v).map (·.1)
      = if d.any (fun p => p.1 == k) then d.map (·.1)
        else d.map (·.1) ++ [k] := by
  unfold dictSet
  cases hany : d.any (fun p => p.1 == k) with
  | true =>
    simp only [if_true]
    rw [List.map_map]
    apply List.map_congr_left
    intro p _
    show (if p.1 == k then (p.1, v) else p).1 = p.1
    split <;> rfl
  | false =>
    simp [Bool.false_eq_true, if_false]

theorem dictSet_keys_nodup (d : List (Node × Node)) (k v : Node)
    (h : (d.map (·.1)).Nodup) : ((dictSet d k v).map (·.1)).Nodup := by
  rw [dictSet_keys]
  cases hany : d.any (fun p => p.1 == k) with
  | true => simpa [hany] using h
  | false =>
    have hnk : k ∉ d.map (·.1) := by
      rw [List.any_eq_false] at hany
      intro hmem
      obtain ⟨p, hp, hpk⟩ := List.mem_map.1 hmem
      exact (by simpa [hpk] using hany p hp)
    simp [hany, List.nodup_append, h, hnk]

theorem pyLookup_pyUpdate_none (d P : List (Node × Node)) (k : Node)
    (h : pyLookup P k = none) :
    pyLookup (pyUpdate d P) k = pyLookup d k := by
  induction P generalizing d with
  | nil => rfl
  | cons p P ih =>
    cases hb : (p.1 == k) with
    | true => simp [pyLookup, hb] at h
    | false =>
      have htail : pyLookup P k = none := by
        simpa [pyLookup, hb] using h
      have hstep : pyUpdate d (p :: P) = pyUpdate (dictSet d p.1 p.2) P := rfl
      rw [hstep, ih _ htail, pyLookup_dictSet_ne]
      intro he
      simp [he] at hb

theorem pyLookup_pyUpdate_some (d P : List (Node × Node)) (k v : Node)
    (hnd : (P.map (·.1)).Nodup) (h : pyLookup P k = some v) :
    pyLookup (pyUpdate d P) k = some v := by
  induction P generalizing d with
  | nil => simp [pyLookup] at h
  | cons p P ih =>
    have hstep : pyUpdate d (p :: P) = pyUpdate (dictSet d p.1 p.2) P := rfl
    cases hb : (p.1 == k) with
    | true =>
      have hpk : p.1 = k := eq_of_beq hb
      have hv : p.2 = v := by
        simpa [pyLookup, hb] using h
      have hnone : pyLookup P k = none := by
        rw [pyLookup_eq_none_iff]
        intro q hq hqk
        rw [List.map_cons] at hnd
        exact (List.nodup_cons.1 hnd).1
          (hpk ▸ hqk ▸ List.mem_map.2 ⟨q, hq, rfl⟩)
      rw [hstep, pyLookup_pyUpdate_none _ _ _ hnone, hpk, hv,
        pyLookup_dictSet_self]
    | false =>
      have htail : pyLookup P k = some v := by
        simpa [pyLookup, hb] using h
      have hnd' : (P.map (·.1)).Nodup := by
        rw [List.map_cons] at hnd
        exact (List.nodup_cons.1 hnd).2
      rw [hstep]
      exact ih _ hnd' htail

theorem exFoldlM_nil {α β : Type} (f : β → α → Except PyErr β) (b : β) :
    List.foldlM f b [] = Except.ok b := rfl

theorem exFoldlM_cons {α β : Type} (f : β → α → Except PyErr β) (b : β)
    (x : α) (xs : List α) :
    List.foldlM f b (x :: xs) = f b x >>= fun b2 => List.foldlM f b2 xs := rfl

theorem lookupStr_any (kvs : List (String × Node)) (k : String) (v : Node)
    (h : lookupStr kvs k = some v) : kvs.any (fun p => p.1 == k) = true := by
  induction kvs with
  | nil => simp [lookupStr] at h
  | cons p rest ih =>
    rw [List.any_cons]
    cases hb : (p.1 == k) with
    | true => simp [hb]
    | false =>
      simp only [Bool.false_or]
      apply ih
      simpa [lookupStr, hb] using h

theorem extractStep_ok (spec : Node) (acc : List (Node × Node))
    (pn : String × Node) (P2 : List (Node × Node))
    (h : extractStep spec acc pn = .ok P2) :
    ∃ v, propDesc spec pn.2 = .ok v ∧ P2 = dictSet acc (Node.str pn.1) v := by
  unfold extractStep at h
  obtain ⟨v, hv, hp⟩ := exBind_eq_ok h
  refine ⟨v, hv, ?_⟩
  simpa using hp.symm

theorem extract_fold_preserve (spec : Node) (l : List (String × Node)) :
    ∀ acc P k, l.foldlM (extractStep spec) acc = .ok P →
      (∀ p ∈ l, Node.str p.1 ≠ k) → pyLookup P k = pyLookup acc k := by
  induction l with
  | nil =>
    intro acc P k h _
    rw [exFoldlM_nil] at h
    injection h with h
    rw [h]
  | cons p l ih =>
    intro acc P k h hk
    rw [exFoldlM_cons] at h
    obtain ⟨acc2, hstep, hrest⟩ := exBind_eq_ok h
    obtain ⟨v, _, rfl⟩ := extractStep_ok _ _ _ _ hstep
    rw [ih _ P k hrest (fun q hq => hk q (List.mem_cons_of_mem _ hq))]
    exact pyLookup_dictSet_ne _ _ _ _ (hk p (List.mem_cons_self p l))

theorem extract_fold_nodup (spec : Node) (l : List (String × Node)) :
    ∀ acc P, l.foldlM (extractStep spec) acc = .ok P →
      (acc.map (·.1)).Nodup → (P.map (·.1)).Nodup := by
  induction l with
  | nil =>
    intro acc P h ha
    rw [exFoldlM_nil] at h
    injection h with h
    rw [← h]
    exact ha
  | cons p l ih =>
    intro acc P h ha
    rw [exFoldlM_cons] at h
    obtain ⟨acc2, hstep, hrest⟩ := exBind_eq_ok h
    obtain ⟨v, _, rfl⟩ := extractStep_ok _ _ _ _ hstep
    exact ih _ P hrest (dictSet_keys_nodup _ _ _ ha)

theorem extract_fold_lookup (spec : Node) (l : List (String × Node)) :
    ∀ acc P name pd0, l.foldlM (extractStep spec) acc = .ok P →
      (l.map (·.1)).Nodup → (name, pd0) ∈ l →
      ∃ v, propDesc spec pd0 = .ok v ∧ pyLookup P (Node.str name) = some v := by
  induction l with
  | nil =>
    intro _ _ _ _ _ _ hm
    cases hm
  | cons p l ih =>
    intro acc P name pd0 h hnd hm
    rw [exFoldlM_cons] at h
    obtain ⟨acc2, hstep, hrest⟩ := exBind_eq_ok h
    obtain ⟨v, hpd, rfl⟩ := extractStep_ok _ _ _ _ hstep
    rcases List.mem_cons.1 hm with heq | hmem
    · have hp1 : p.1 = name := by rw [← heq]
      have hp2 : p.2 = pd0 := by rw [← heq]
      refine ⟨v, by rwa [hp2] at hpd, ?_⟩
      have hlater : ∀ q ∈ l, Node.str q.1 ≠ Node.str name := by
        intro q hq he
        have hq1 : q.1 = name := by injection he
        rw [List.map_cons, hp1] at hnd
        exact (List.nodup_cons.1 hnd).1 (hq1 ▸ List.mem_map.2 ⟨q, hq, rfl⟩)
      rw [extract_fold_preserve spec l _ P _ hrest hlater, hp1,
        pyLookup_dictSet_self]
    · rcases ih _ P name pd0 hrest
        (by rw [List.map_cons] at hnd; exact (List.nodup_cons.1 hnd).2) hmem with
        ⟨w, hw1, hw2⟩
      exact ⟨w, hw1, hw2⟩

end Helpers

/-- C1: for every document and every valid reference of the form `#/a/b/c`
whose path exists in the document, `resolve_ref` returns exactly the
subtree obtained by indexing the document root by `a`, then `b`, then
`c`, in order.  (Validity of the form: the keys contain no `/`, and the
first key does not begin with one of the stripped characters `#`/`/` —
otherwise the reference string does not decompose as `#/a/b/c`.) -/
theorem claim1_resolve_ref_round_trip (a b c : String) (spec v : Node)
    (hhead : ∃ ch t, a.data = ch :: t ∧ ch ≠ '#' ∧ ch ≠ '/')
    (hsa : '/' ∉ a.data) (hsb : '/' ∉ b.data) (hsc : '/' ∉ c.data)
    (hv : (do
        let x ← spec.getKey a
        let y ← x.getKey b
        y.getKey c) = Except.ok v) :
    resolve_ref ("#/" ++ a ++ "/" ++ b ++ "/" ++ c) spec = Except.ok v := by
  obtain ⟨ch, t, hat, h1, h2⟩ := hhead
  have hdata : ("#/" ++ a ++ "/" ++ b ++ "/" ++ c).data
      = '#' :: '/' :: (a.data ++ '/' :: (b.data ++ '/' :: c.data)) := by
    simp [String.data_append]
  have hch : (['#', '/'].contains ch) = false := by simp [h1, h2]
  have hsharp : (['#', '/'].contains '#') = true := by decide
  have hslash : (['#', '/'].contains '/') = true := by decide
  have hstrip : ("#/" ++ a ++ "/" ++ b ++ "/" ++ c).data.dropWhile
        (fun x => ['#', '/'].contains x)
      = a.data ++ '/' :: (b.data ++ '/' :: c.data) := by
    rw [hdata, List.dropWhile_cons, List.dropWhile_cons]
    simp only [hsharp, hslash, if_true]
    have hcond : ¬ ((fun x => ['#', '/'].contains x) ch = true) := by
      simp [h1, h2]
    rw [hat, List.cons_append, List.dropWhile_cons, if_neg hcond]
  have hsplit : splitChar '/' (a.data ++ '/' :: (b.data ++ '/' :: c.data))
      = [a.data, b.data, c.data] := by
    rw [splitChar_append_sep _ _ _ hsa, splitChar_append_sep _ _ _ hsb,
      splitChar_no_sep _ _ hsc]
  have heta : ∀ s : String, (⟨s.data⟩ : String) = s := fun _ => rfl
  have hkeys : pySplit '/' (pyLStrip ['#', '/'] ("#/" ++ a ++ "/" ++ b ++ "/" ++ c))
      = [a, b, c] := by
    show (splitChar '/' (("#/" ++ a ++ "/" ++ b ++ "/" ++ c).data.dropWhile
        (fun x => ['#', '/'].contains x))).map (fun l => (⟨l⟩ : String))
      = [a, b, c]
    rw [hstrip, hsplit]
    simp [heta]
  obtain ⟨x, hx, hrest⟩ := exBind_eq_ok hv
  obtain ⟨y, hy, hz⟩ := exBind_eq_ok hrest
  unfold resolve_ref
  rw [hkeys]
  simp [List.foldlM, hx, hy, hz]

/-- C1 witness: the round-trip theorem applied to a concrete document and
the concrete reference `#/components/schemas/Pet`. -/
theorem claim1_witness :
    resolve_ref ("#/" ++ "components" ++ "/" ++ "schemas" ++ "/" ++ "Pet")
      (Node.obj [("components", Node.obj [("schemas",
        Node.obj [("Pet", Node.obj [("type", Node.str "object")])])])])
      = Except.ok (Node.obj [("type", Node.str "object")]) :=
  claim1_resolve_ref_round_trip "components" "schemas" "Pet" _ _
    ⟨'c', "omponents".data, rfl, by decide, by decide⟩
    (by decide) (by decide) (by decide) rfl

/-- C2 counterexample: the reference `"paths"` does not start with `#/`,
yet `resolve_ref` silently returns a node for it instead of signalling an
error — `lstrip('#/')` strips leading characters of the set, it does not
validate a prefix. -/
theorem claim2_counterexample :
    "paths".data.take 2 ≠ ['#', '/'] ∧
    resolve_ref "paths" (Node.obj [("paths", Node.arr [Node.num 7])])
      = Except.ok (Node.arr [Node.num 7]) :=
  ⟨by decide, rfl⟩

/-- C2 amended: `resolve_ref` performs no prefix validation at all —
prefixing any reference with `#/` never changes the result, so a
non-`#/`-prefixed reference resolves exactly as its prefixed form does
(silently returning a node whenever the key path exists), and failures
arise only from the traversal itself. -/
theorem claim2_no_prefix_validation (ref : String) (spec : Node) :
    resolve_ref ref spec = resolve_ref ("#/" ++ ref) spec := by
  have hstrip : pyLStrip ['#', '/'] ("#/" ++ ref) = pyLStrip ['#', '/'] ref := by
    unfold pyLStrip
    have hdata : ("#/" ++ ref).data = '#' :: '/' :: ref.data := by
      simp [String.data_append]
    have hsharp : (['#', '/'].contains '#') = true := by decide
    have hslash : (['#', '/'].contains '/') = true := by decide
    rw [hdata, List.dropWhile_cons, List.dropWhile_cons]
    simp only [hsharp, hslash, if_true]
  unfold resolve_ref
  rw [hstrip]

/-- C3: a parameter whose (possibly `$ref`-resolved) schema is a mapping
without a `type` key flattens to `type = "string"` (line 71's default),
and a request-body property whose (possibly `$ref`-resolved) definition
is a mapping without a `type` key flattens to `type = "object"` (line
38's default). -/
theorem claim3_default_types :
    (∀ spec param0 pkvs n skvs,
      resolveIfRef spec param0 = .ok (Node.obj pkvs) →
      lookupStr pkvs "name" = some n →
      resolveIfRef spec ((lookupStr pkvs "schema").getD (Node.obj []))
        = .ok (Node.obj skvs) →
      lookupStr skvs "type" = none →
      ∃ dsc rq, handleParam spec param0
        = .ok (n, Node.obj [("type", Node.str "string"),
                            ("description", dsc)], rq))
    ∧
    (∀ spec schema0 P R skvs pkvs name pd0 pdkvs,
      extract_properties schema0 spec = .ok (P, R) →
      resolveIfRef spec schema0 = .ok (Node.obj skvs) →
      lookupStr skvs "properties" = some (Node.obj pkvs) →
      (pkvs.map (·.1)).Nodup →
      (name, pd0) ∈ pkvs →
      resolveIfRef spec pd0 = .ok (Node.obj pdkvs) →
      lookupStr pdkvs "type" = none →
      ∃ dsc, pyLookup P (Node.str name)
        = some (Node.obj [("type", Node.str "object"),
                          ("description", dsc)])) := by
  constructor
  · intro spec param0 pkvs n skvs hp hn hres htype
    refine ⟨(lookupStr pkvs "description").getD (Node.str ""),
      ((lookupStr pkvs "required").getD (Node.bool false)).truthy, ?_⟩
    unfold handleParam
    rw [hp]
    simp only [exBind_ok, Node.getKey, hn, Node.dictGet, exBind_ok]
    rw [hres]
    simp only [exBind_ok, Node.dictGet, htype, Option.getD_none, exPure]
  · intro spec schema0 P R skvs pkvs name pd0 pdkvs h hres hprops hnd hmem
      hpd htype
    have hany := lookupStr_any _ _ _ hprops
    unfold extract_properties at h
    rw [hres] at h
    simp only [exBind_ok, pyContains, hany] at h
    rw [show propsOrEmpty true (Node.obj skvs) = Except.ok (Node.obj pkvs) by
      simp [propsOrEmpty, Node.getKey, hprops]] at h
    simp only [exBind_ok, Node.dictGet, Node.asObj] at h
    obtain ⟨P2, hfold, hpure⟩ := exBind_eq_ok h
    have hP2 : P2 = P := by
      simp only [exPure, Except.ok.injEq, Prod.mk.injEq] at hpure
      exact hpure.1
    obtain ⟨v, hv, hlook⟩ :=
      extract_fold_lookup spec pkvs [] P name pd0 (hP2 ▸ hfold) hnd hmem
    unfold propDesc at hv
    rw [hpd] at hv
    simp only [exBind_ok, Node.dictGet, htype, Option.getD_none, exPure,
      Except.ok.injEq] at hv
    exact ⟨(lookupStr pdkvs "description").getD (Node.str ""),
      by rw [hlook, ← hv]⟩

/-- C3 witness: both defaults exercised on concrete inputs — a path
parameter with no schema flattens to type `"string"`, and a request-body
property with no `type` key flattens to type `"object"`. -/
theorem claim3_witness :
    (∃ dsc rq, handleParam (Node.obj [])
        (Node.obj [("name", Node.str "id"), ("in", Node.str "path")])
      = .ok (Node.str "id", Node.obj [("type", Node.str "string"),
              ("description", dsc)], rq))
    ∧
    (∃ dsc, pyLookup
        [(Node.str "x", Node.obj [("type", Node.str "object"),
          ("description", Node.str "d")])] (Node.str "x")
      = some (Node.obj [("type", Node.str "object"),
              ("description", dsc)])) := by
  constructor
  · exact claim3_default_types.1 (Node.obj [])
      (Node.obj [("name", Node.str "id"), ("in", Node.str "path")])
      [("name", Node.str "id"), ("in", Node.str "path")]
      (Node.str "id") [] rfl rfl rfl rfl
  · exact claim3_default_types.2 (Node.obj [])
      (Node.obj [("properties",
        Node.obj [("x", Node.obj [("description", Node.str "d")])])])
      [(Node.str "x", Node.obj [("type", Node.str "object"),
        ("description", Node.str "d")])]
      (Node.arr [])
      [("properties", Node.obj [("x", Node.obj [("description", Node.str "d")])])]
      [("x", Node.obj [("description", Node.str "d")])]
      "x" (Node.obj [("description", Node.str "d")])
      [("description", Node.str "d")]
      rfl rfl rfl (by simp) (by simp) rfl rfl

theorem dictSetChecked_ok (d : List (Node × Node)) (k v : Node)
    (d2 : List (Node × Node)) (h : dictSetChecked d k v = .ok d2) :
    d2 = dictSet d k v := by
  cases k <;> simp [dictSetChecked] at h <;> exact h.symm

theorem paramStep_ok (spec : Node) (acc : List (Node × Node) × List Node)
    (param : Node) (acc2 : List (Node × Node) × List Node)
    (h : paramStep spec acc param = .ok acc2) :
    ∃ n d rq, handleParam spec param = .ok (n, d, rq) ∧
      acc2 = (dictSet acc.1 n d, if rq then acc.2 ++ [n] else acc.2) := by
  unfold paramStep at h
  obtain ⟨t, ht, h⟩ := exBind_eq_ok h
  obtain ⟨props, hp, h⟩ := exBind_eq_ok h
  refine ⟨t.1, t.2.1, t.2.2, ht, ?_⟩
  simp only [exPure, Except.ok.injEq] at h
  rw [← h, dictSetChecked_ok _ _ _ _ hp]

theorem param_fold_preserve (spec : Node) (l : List Node) :
    ∀ acc pr n, l.foldlM (paramStep spec) acc = .ok pr →
      (∀ q ∈ l, ∀ m d2 r2, handleParam spec q = .ok (m, d2, r2) → m ≠ n) →
      pyLookup pr.1 n = pyLookup acc.1 n := by
  induction l with
  | nil =>
    intro acc pr n h _
    rw [exFoldlM_nil] at h
    injection h with h
    rw [← h]
  | cons q l ih =>
    intro acc pr n h hne
    rw [exFoldlM_cons] at h
    obtain ⟨acc1, hstep, hrest⟩ := exBind_eq_ok h
    obtain ⟨m, d2, r2, hh, rfl⟩ := paramStep_ok _ _ _ _ hstep
    rw [ih _ pr n hrest (fun q2 hq2 => hne q2 (List.mem_cons_of_mem _ hq2))]
    exact pyLookup_dictSet_ne _ _ _ _
      (hne q (List.mem_cons_self q l) m d2 r2 hh)

theorem param_fold_lookup (spec : Node) (l1 : List Node) (p : Node)
    (l2 : List Node) :
    ∀ acc pr n d rq, (l1 ++ p :: l2).foldlM (paramStep spec) acc = .ok pr →
      handleParam spec p = .ok (n, d, rq) →
      (∀ q ∈ l2, ∀ m d2 r2, handleParam spec q = .ok (m, d2, r2) → m ≠ n) →
      pyLookup pr.1 n = some d := by
  induction l1 with
  | nil =>
    intro acc pr n d rq h hp hne
    rw [List.nil_append, exFoldlM_cons] at h
    obtain ⟨acc1, hstep, hrest⟩ := exBind_eq_ok h
    obtain ⟨m, d2, r2, hh, rfl⟩ := paramStep_ok _ _ _ _ hstep
    rw [hp] at hh
    simp only [Except.ok.injEq, Prod.mk.injEq] at hh
    rw [param_fold_preserve spec l2 _ pr n hrest hne]
    rw [← hh.1, ← hh.2.1]
    exact pyLookup_dictSet_self _ _ _
  | cons x l1 ih =>
    intro acc pr n d rq h hp hne
    rw [List.cons_append, exFoldlM_cons] at h
    obtain ⟨acc1, hstep, hrest⟩ := exBind_eq_ok h
    exact ih _ pr n d rq hrest hp hne

theorem extract_properties_nodup (schema0 spec : Node)
    (P : List (Node × Node)) (R : Node)
    (h : extract_properties schema0 spec = .ok (P, R)) :
    (P.map (·.1)).Nodup := by
  unfold extract_properties at h
  obtain ⟨s, hs, h⟩ := exBind_eq_ok h
  obtain ⟨b, hb, h⟩ := exBind_eq_ok h
  obtain ⟨props, hp, h⟩ := exBind_eq_ok h
  obtain ⟨req, hr, h⟩ := exBind_eq_ok h
  obtain ⟨items, hi, h⟩ := exBind_eq_ok h
  obtain ⟨P2, hfold, hpure⟩ := exBind_eq_ok h
  have hP2 : P2 = P := by
    simp only [exPure, Except.ok.injEq, Prod.mk.injEq] at hpure
    exact hpure.1
  exact extract_fold_nodup spec items [] P (hP2 ▸ hfold) (by simp)

theorem contentStep_nodup (spec so : Node) (P : List (Node × Node))
    (R : List Node) (h : contentStep spec so = .ok (P, R)) :
    (P.map (·.1)).Nodup := by
  unfold contentStep at h
  obtain ⟨s0, h0, h⟩ := exBind_eq_ok h
  obtain ⟨s1, h1, h⟩ := exBind_eq_ok h
  obtain ⟨pr, hpr, h⟩ := exBind_eq_ok h
  obtain ⟨rl, hrl, h⟩ := exBind_eq_ok h
  simp only [exPure, Except.ok.injEq, Prod.mk.injEq] at h
  exact h.1 ▸ extract_properties_nodup s1 spec pr.1 pr.2 hpr

theorem bodyStep_ok (spec : Node) (acc : List (Node × Node) × List Node)
    (it : String × Node) (acc2 : List (Node × Node) × List Node)
    (h : bodyStep spec acc it = .ok acc2) :
    ∃ P R, contentStep spec it.2 = .ok (P, R) ∧
      acc2 = (pyUpdate acc.1 P, acc.2 ++ R) := by
  unfold bodyStep at h
  obtain ⟨pr, hpr, h⟩ := exBind_eq_ok h
  refine ⟨pr.1, pr.2, hpr, ?_⟩
  simp only [exPure, Except.ok.injEq] at h
  rw [← h]

theorem content_fold_preserve (spec : Node) (l : List (String × Node)) :
    ∀ acc pr n, l.foldlM (bodyStep spec) acc = .ok pr →
      (∀ q ∈ l, ∀ P2 R2, contentStep spec q.2 = .ok (P2, R2) →
        pyLookup P2 n = none) →
      pyLookup pr.1 n = pyLookup acc.1 n := by
  induction l with
  | nil =>
    intro acc pr n h _
    rw [exFoldlM_nil] at h
    injection h with h
    rw [← h]
  | cons q l ih =>
    intro acc pr n h hne
    rw [exFoldlM_cons] at h
    obtain ⟨acc1, hstep, hrest⟩ := exBind_eq_ok h
    obtain ⟨P2, R2, hcs, rfl⟩ := bodyStep_ok _ _ _ _ hstep
    rw [ih _ pr n hrest (fun q2 hq2 => hne q2 (List.mem_cons_of_mem _ hq2))]
    exact pyLookup_pyUpdate_none _ _ _
      (hne q (List.mem_cons_self q l) P2 R2 hcs)

theorem content_fold_lookup (spec : Node) (l1 : List (String × Node))
    (it : String × Node) (l2 : List (String × Node)) :
    ∀ acc pr n v P R, (l1 ++ it :: l2).foldlM (bodyStep spec) acc = .ok pr →
      contentStep spec it.2 = .ok (P, R) →
      pyLookup P n = some v →
      (∀ q ∈ l2, ∀ P2 R2, contentStep spec q.2 = .ok (P2, R2) →
        pyLookup P2 n = none) →
      pyLookup pr.1 n = some v := by
  induction l1 with
  | nil =>
    intro acc pr n v P R h hcs hv hne
    rw [List.nil_append, exFoldlM_cons] at h
    obtain ⟨acc1, hstep, hrest⟩ := exBind_eq_ok h
    obtain ⟨P2, R2, hcs2, rfl⟩ := bodyStep_ok _ _ _ _ hstep
    rw [hcs] at hcs2
    simp only [Except.ok.injEq, Prod.mk.injEq] at hcs2
    rw [content_fold_preserve spec l2 _ pr n hrest hne]
    rw [← hcs2.1]
    exact pyLookup_pyUpdate_some _ _ _ _
      (contentStep_nodup spec it.2 P R hcs) hv
  | cons x l1 ih =>
    intro acc pr n v P R h hcs hv hne
    rw [List.cons_append, exFoldlM_cons] at h
    obtain ⟨acc1, hstep, hrest⟩ := exBind_eq_ok h
    exact ih _ pr n v P R hrest hcs hv hne

/-- C4: property merging is last-write-wins in iteration order — among an
operation's parameters, the properties entry for a shared name is the
later parameter's descriptor; and a property contributed by a content
type overwrites any earlier entry of the same name (whether
parameter-derived or from an earlier content type). -/
theorem claim4_last_write_wins :
    (∀ spec xs p ys props req n d rq,
      processParams spec (xs ++ p :: ys) [] [] = .ok (props, req) →
      handleParam spec p = .ok (n, d, rq) →
      (∀ q ∈ ys, ∀ m d2 r2, handleParam spec q = .ok (m, d2, r2) → m ≠ n) →
      pyLookup props n = some d)
    ∧
    (∀ spec xs it ys acc0 props req n v P R,
      contentFold spec (xs ++ it :: ys) acc0 = .ok (props, req) →
      contentStep spec it.2 = .ok (P, R) →
      pyLookup P n = some v →
      (∀ q ∈ ys, ∀ P2 R2, contentStep spec q.2 = .ok (P2, R2) →
        pyLookup P2 n = none) →
      pyLookup props n = some v) := by
  constructor
  · intro spec xs p ys props req n d rq h hp hne
    exact param_fold_lookup spec xs p ys ([], []) (props, req) n d rq h hp hne
  · intro spec xs it ys acc0 props req n v P R h hcs hv hne
    exact content_fold_lookup spec xs it ys acc0 (props, req) n v P R h hcs hv hne

/-- Descriptor of the later of two same-named parameters, used as the C4
witness value. -/
def c4d2 : Node :=
  Node.obj [("type", Node.str "string"), ("description", Node.str "p2")]

/-- Earlier parameter named `a`. -/
def c4param1 : Node :=
  Node.obj [("name", Node.str "a"), ("description", Node.str "p1")]

/-- Later parameter, also named `a`. -/
def c4param2 : Node :=
  Node.obj [("name", Node.str "a"), ("description", Node.str "p2")]

/-- Descriptor contributed by the later content type for property `x`. -/
def c4dInt : Node :=
  Node.obj [("type", Node.str "integer"), ("description", Node.str "")]

/-- Earlier content-map entry: property `x` typed `string`. -/
def c4so1 : Node :=
  Node.obj [("schema", Node.obj [("properties",
    Node.obj [("x", Node.obj [("type", Node.str "string")])])])]

/-- Later content-map entry: property `x` typed `integer`. -/
def c4so2 : Node :=
  Node.obj [("schema", Node.obj [("properties",
    Node.obj [("x", Node.obj [("type", Node.str "integer")])])])]

/-- C4 witness: both merge directions exercised concretely — two
parameters named `a` (the later descriptor survives) and two content
types contributing `x` (the later content type's descriptor survives). -/
theorem claim4_witness :
    pyLookup [(Node.str "a", c4d2)] (Node.str "a") = some c4d2 ∧
    pyLookup [(Node.str "x", c4dInt)] (Node.str "x") = some c4dInt := by
  constructor
  · exact claim4_last_write_wins.1 (Node.obj []) [c4param1] c4param2 []
      [(Node.str "a", c4d2)] [] (Node.str "a") c4d2 false rfl rfl
      (by intro q hq; cases hq)
  · exact claim4_last_write_wins.2 (Node.obj [])
      [("application/json", c4so1)] ("text/plain", c4so2) [] ([], [])
      [(Node.str "x", c4dInt)] [] (Node.str "x") c4dInt
      [(Node.str "x", c4dInt)] [] rfl rfl rfl
      (by intro q hq; cases hq)

theorem param_fold_req (spec : Node) {params : List Node}
    {triples : List (Node × Node × Bool)}
    (hF : List.Forall₂ (fun p t => handleParam spec p = Except.ok t)
      params triples) :
    ∀ acc pr, params.foldlM (paramStep spec) acc = .ok pr →
      pr.2 = acc.2 ++ (triples.filter (fun t => t.2.2)).map (fun t => t.1) := by
  induction hF with
  | nil =>
    intro acc pr h
    rw [exFoldlM_nil] at h
    injection h with h
    rw [← h]
    simp
  | @cons p t ps ts hpt htail ih =>
    intro acc pr h
    rw [exFoldlM_cons] at h
    obtain ⟨acc1, hstep, hrest⟩ := exBind_eq_ok h
    obtain ⟨m, d2, r2, hh, rfl⟩ := paramStep_ok _ _ _ _ hstep
    rw [hpt] at hh
    injection hh with hh
    subst hh
    rw [ih _ pr hrest]
    simp only [List.filter_cons]
    cases hr : r2 with
    | true => simp [hr, List.append_assoc]
    | false => simp [hr]

theorem content_fold_req (spec : Node) {items : List (String × Node)}
    {prs : List (List (Node × Node) × List Node)}
    (hG : List.Forall₂ (fun it pr => contentStep spec it.2 = Except.ok pr)
      items prs) :
    ∀ acc pr, items.foldlM (bodyStep spec) acc = .ok pr →
      pr.2 = acc.2 ++ (prs.map (fun pr2 => pr2.2)).flatten := by
  induction hG with
  | nil =>
    intro acc pr h
    rw [exFoldlM_nil] at h
    injection h with h
    rw [← h]
    simp
  | @cons it qr its qrs hq htail ih =>
    intro acc pr h
    rw [exFoldlM_cons] at h
    obtain ⟨acc1, hstep, hrest⟩ := exBind_eq_ok h
    obtain ⟨P, R, hcs, rfl⟩ := bodyStep_ok _ _ _ _ hstep
    rw [hq] at hcs
    injection hcs with hcs
    subst hcs
    rw [ih _ pr hrest]
    simp [List.append_assoc]

/-- C5: the emitted `required` list is exactly the concatenation, in
iteration order, of the names of parameters whose `required` flag is
truthy, followed by each content type's flattened `required` list
verbatim — no deduplication and no check that the names occur in
`properties`, so a name declared required in several places appears
several times. -/
theorem claim5_required_concat (spec : Node) (params : List Node)
    (triples : List (Node × Node × Bool)) (items : List (String × Node))
    (prs : List (List (Node × Node) × List Node))
    (props1 props2 : List (Node × Node)) (req1 req2 : List Node)
    (hF : List.Forall₂ (fun p t => handleParam spec p = Except.ok t)
      params triples)
    (h1 : processParams spec params [] [] = .ok (props1, req1))
    (hG : List.Forall₂ (fun it pr => contentStep spec it.2 = Except.ok pr)
      items prs)
    (h2 : contentFold spec items (props1, req1) = .ok (props2, req2)) :
    req2 = (triples.filter (fun t => t.2.2)).map (fun t => t.1)
      ++ (prs.map (fun pr => pr.2)).flatten := by
  have e1 : req1
      = (triples.filter (fun t => t.2.2)).map (fun t => t.1) := by
    have := param_fold_req spec hF ([], []) (props1, req1) h1
    simpa using this
  have e2 : req2 = req1 ++ (prs.map (fun pr => pr.2)).flatten :=
    content_fold_req spec hG (props1, req1) (props2, req2) h2
  rw [e2, e1]

/-- The flattened descriptor of the C5 witness parameter. -/
def c5desc : Node :=
  Node.obj [("type", Node.str "string"), ("description", Node.str "")]

/-- C5 witness content-map entry: a schema with no properties whose
`required` list names `x` — which the witness parameter also declares
required, so `x` ends up in `required` twice. -/
def c5so : Node :=
  Node.obj [("schema", Node.obj [("required", Node.arr [Node.str "x"])])]

/-- C5 witness: a parameter named `x` marked required plus a content type
whose `required` list also names `x` yield `required = [x, x]` — the
name appears twice, undeduplicated. -/
theorem claim5_witness :
    [Node.str "x", Node.str "x"]
      = (([(Node.str "x", c5desc, true)].filter (fun t => t.2.2)).map
          (fun t => t.1))
        ++ ((([(([] : List (Node × Node)), [Node.str "x"])]).map
          (fun pr => pr.2)).flatten) :=
  claim5_required_concat (Node.obj [])
    [Node.obj [("name", Node.str "x"), ("required", Node.bool true)]]
    [(Node.str "x", c5desc, true)]
    [("application/json", c5so)]
    [([], [Node.str "x"])]
    [(Node.str "x", c5desc)] [(Node.str "x", c5desc)]
    [Node.str "x"] [Node.str "x", Node.str "x"]
    (List.Forall₂.cons rfl List.Forall₂.nil)
    rfl
    (List.Forall₂.cons rfl List.Forall₂.nil)
    rfl

theorem lookupStr_none_any (kvs : List (String × Node)) (k : String)
    (h : lookupStr kvs k = none) : kvs.any (fun p => p.1 == k) = false := by
  induction kvs with
  | nil => rfl
  | cons p rest ih =>
    rw [List.any_cons]
    cases hb : (p.1 == k) with
    | true => simp [lookupStr, hb] at h
    | false =>
      simp only [Bool.false_or]
      exact ih (by simpa [lookupStr, hb] using h)

theorem foldlM_error_of_mem {α β : Type} (step : β → α → Except PyErr β)
    (l : List α) (x : α) (hx : x ∈ l)
    (hfail : ∀ b, ∃ e, step b x = .error e) :
    ∀ b, ∃ e, l.foldlM step b = .error e := by
  induction l with
  | nil => cases hx
  | cons y l ih =>
    intro b
    rw [exFoldlM_cons]
    cases hy : step b y with
    | error e => exact ⟨e, rfl⟩
    | ok b1 =>
      rcases List.mem_cons.1 hx with rfl | hmem
      · obtain ⟨e, he⟩ := hfail b
        rw [he] at hy
        cases hy
      · obtain ⟨e, he⟩ := ih hmem b1
        exact ⟨e, he⟩

theorem transform_error_of_op (spec : Node) (pkvs : List (String × Node))
    (p : String) (mkvs : List (String × Node)) (m : String) (d : Node)
    (hpaths : spec.getKey "paths" = .ok (Node.obj pkvs))
    (hp : (p, Node.obj mkvs) ∈ pkvs) (hm : (m, d) ∈ mkvs)
    (hfail : ∃ e, processOp spec p d = .error e) :
    ∃ e, transform_to_openai_format spec = .error e := by
  obtain ⟨e0, he0⟩ := hfail
  have hinner : ∀ b, ∃ e, mkvs.foldlM (opStep spec p) b = .error e := by
    apply foldlM_error_of_mem _ _ (m, d) hm
    intro b
    exact ⟨e0, by unfold opStep; rw [he0]; rfl⟩
  have houter : ∀ b, ∃ e, pkvs.foldlM (pathStep spec) b = .error e := by
    apply foldlM_error_of_mem _ _ (p, Node.obj mkvs) hp
    intro b
    obtain ⟨e, he⟩ := hinner b
    exact ⟨e, by unfold pathStep; simp only [Node.asObj, exBind_ok]; exact he⟩
  unfold transform_to_openai_format
  rw [hpaths]
  simp only [exBind_ok, Node.asObj]
  exact houter ([], [])

theorem processOp_error_no_opid (spec : Node) (path : String)
    (dkvs : List (String × Node))
    (hno : lookupStr dkvs "operationId" = none) :
    ∃ e, processOp spec path (Node.obj dkvs) = .error e := by
  refine ⟨PyErr.keyError, ?_⟩
  unfold processOp
  simp only [Node.getKey, hno, exBind_error]

theorem processOp_error_no_content (spec : Node) (path : String)
    (dkvs rkvs : List (String × Node))
    (hrb : lookupStr dkvs "requestBody" = some (Node.obj rkvs))
    (hnoref : lookupStr rkvs "$ref" = none)
    (hnc : lookupStr rkvs "content" = none) :
    ∃ e, processOp spec path (Node.obj dkvs) = .error e := by
  unfold processOp
  cases hop : (Node.obj dkvs).getKey "operationId" with
  | error e => exact ⟨e, rfl⟩
  | ok name =>
    cases hps : paramsStage spec (Node.obj dkvs)
        (dkvs.any (fun q => q.1 == "parameters")) with
    | error e =>
      refine ⟨e, ?_⟩
      simp only [hop, exBind_ok, Node.dictGet, pyContains, hps, exBind_error]
    | ok pr =>
      have hbody : processBody spec (Node.obj dkvs) pr.1 pr.2
          = .error PyErr.keyError := by
        unfold processBody
        have hcont : pyContains (Node.obj dkvs) "requestBody" = .ok true := by
          simp [pyContains, lookupStr_any _ _ _ hrb]
        simp only [hcont, exBind_ok, if_true, Node.getKey, hrb, exBind_ok]
        unfold resolveIfRef
        simp only [pyContains, lookupStr_none_any _ _ hnoref, exBind_ok,
          Bool.false_eq_true, if_false, exPure, exBind_ok, Node.getKey, hnc,
          exBind_error]
      refine ⟨PyErr.keyError, ?_⟩
      simp only [hop, exBind_ok, Node.dictGet, pyContains, hps, exBind_ok,
        hbody, exBind_error]

theorem processOp_never_ok_no_servers (spec : Node)
    (hs : ∀ v, spec.getKey "servers" ≠ Except.ok v) :
    ∀ path details r, processOp spec path details ≠ Except.ok r := by
  intro path details r h
  unfold processOp at h
  obtain ⟨name, h1, h⟩ := exBind_eq_ok h
  obtain ⟨dsc, h2, h⟩ := exBind_eq_ok h
  obtain ⟨hp, h3, h⟩ := exBind_eq_ok h
  obtain ⟨pr, h4, h⟩ := exBind_eq_ok h
  obtain ⟨pr2, h5, h⟩ := exBind_eq_ok h
  obtain ⟨stub, h6, h⟩ := exBind_eq_ok h
  unfold stubStage at h6
  obtain ⟨fn, g1, h6⟩ := exBind_eq_ok h6
  obtain ⟨params0, g2, h6⟩ := exBind_eq_ok h6
  obtain ⟨plist, g3, h6⟩ := exBind_eq_ok h6
  obtain ⟨pp, g4, h6⟩ := exBind_eq_ok h6
  obtain ⟨qp, g5, h6⟩ := exBind_eq_ok h6
  obtain ⟨rbp, g6, h6⟩ := exBind_eq_ok h6
  obtain ⟨rbkvs, g7, h6⟩ := exBind_eq_ok h6
  obtain ⟨ppS, g8, h6⟩ := exBind_eq_ok h6
  obtain ⟨qpS, g9, h6⟩ := exBind_eq_ok h6
  obtain ⟨servers, g10, h6⟩ := exBind_eq_ok h6
  exact hs servers g10

/-- C6: each required field the transformer assumes aborts the whole
conversion when absent — an operation without `operationId` (part 1), a
request body without `content` (part 2), and a missing document-level
`servers` while at least one operation exists (part 3) each make
`transform_to_openai_format` return an error; by its `Except` type no
function list or stub list is produced at all in that case, so there is
no per-operation isolation or partial output. -/
theorem claim6_hard_failures :
    (∀ spec pkvs p mkvs m dkvs,
      spec.getKey "paths" = .ok (Node.obj pkvs) →
      (p, Node.obj mkvs) ∈ pkvs →
      (m, Node.obj dkvs) ∈ mkvs →
      lookupStr dkvs "operationId" = none →
      ∃ e, transform_to_openai_format spec = .error e)
    ∧
    (∀ spec pkvs p mkvs m dkvs rkvs,
      spec.getKey "paths" = .ok (Node.obj pkvs) →
      (p, Node.obj mkvs) ∈ pkvs →
      (m, Node.obj dkvs) ∈ mkvs →
      lookupStr dkvs "requestBody" = some (Node.obj rkvs) →
      lookupStr rkvs "$ref" = none →
      lookupStr rkvs "content" = none →
      ∃ e, transform_to_openai_format spec = .error e)
    ∧
    (∀ spec pkvs p mkvs m d,
      spec.getKey "paths" = .ok (Node.obj pkvs) →
      (∀ v, spec.getKey "servers" ≠ Except.ok v) →
      (p, Node.obj mkvs) ∈ pkvs →
      (m, d) ∈ mkvs →
      ∃ e, transform_to_openai_format spec = .error e) := by
  refine ⟨?_, ?_, ?_⟩
  · intro spec pkvs p mkvs m dkvs hpaths hp hm hno
    exact transform_error_of_op spec pkvs p mkvs m (Node.obj dkvs) hpaths hp hm
      (processOp_error_no_opid spec p dkvs hno)
  · intro spec pkvs p mkvs m dkvs rkvs hpaths hp hm hrb hnoref hnc
    exact transform_error_of_op spec pkvs p mkvs m (Node.obj dkvs) hpaths hp hm
      (processOp_error_no_content spec p dkvs rkvs hrb hnoref hnc)
  · intro spec pkvs p mkvs m d hpaths hs hp hm
    refine transform_error_of_op spec pkvs p mkvs m d hpaths hp hm ?_
    cases hop : processOp spec p d with
    | error e => exact ⟨e, rfl⟩
    | ok r => exact absurd hop (processOp_never_ok_no_servers spec hs p d r)

/-- A document whose only operation lacks `operationId`. -/
def c6doc1 : Node :=
  Node.obj [("paths", Node.obj [("/a", Node.obj [("get", Node.obj [])])])]

/-- A document whose operation has a `requestBody` without `content`. -/
def c6doc2 : Node :=
  Node.obj [
    ("servers", Node.arr [Node.obj [("url", Node.str "u")]]),
    ("paths", Node.obj [("/a", Node.obj [("post", Node.obj [
      ("operationId", Node.str "op"),
      ("requestBody", Node.obj [])])])])]

/-- A document with one operation but no `servers` entry. -/
def c6doc3 : Node :=
  Node.obj [("paths", Node.obj [("/a", Node.obj [("get",
    Node.obj [("operationId", Node.str "op")])])])]

/-- C6 witness: all three missing-field scenarios abort the whole
conversion on concrete documents. -/
theorem claim6_witness :
    (∃ e, transform_to_openai_format c6doc1 = .error e) ∧
    (∃ e, transform_to_openai_format c6doc2 = .error e) ∧
    (∃ e, transform_to_openai_format c6doc3 = .error e) := by
  refine ⟨?_, ?_, ?_⟩
  · exact claim6_hard_failures.1 c6doc1
      [("/a", Node.obj [("get", Node.obj [])])] "/a"
      [("get", Node.obj [])] "get" []
      rfl (List.mem_singleton.2 rfl) (List.mem_singleton.2 rfl) rfl
  · exact claim6_hard_failures.2.1 c6doc2
      [("/a", Node.obj [("post", Node.obj [
        ("operationId", Node.str "op"),
        ("requestBody", Node.obj [])])])] "/a"
      [("post", Node.obj [("operationId", Node.str "op"),
        ("requestBody", Node.obj [])])] "post"
      [("operationId", Node.str "op"), ("requestBody", Node.obj [])] []
      rfl (List.mem_singleton.2 rfl) (List.mem_singleton.2 rfl) rfl rfl rfl
  · exact claim6_hard_failures.2.2 c6doc3
      [("/a", Node.obj [("get", Node.obj [("operationId", Node.str "op")])])]
      "/a" [("get", Node.obj [("operationId", Node.str "op")])] "get"
      (Node.obj [("operationId", Node.str "op")])
      rfl
      (fun v h => Except.noConfusion
        (show Except.error PyErr.keyError = Except.ok v from h))
      (List.mem_singleton.2 rfl) (List.mem_singleton.2 rfl)

theorem op_fold_spec (spec : Node) (p : String) (mkvs : List (String × Node)) :
    ∀ acc res, mkvs.foldlM (opStep spec p) acc = .ok res →
      ∃ new : List (FunctionDesc × Stub),
        List.Forall₂ (fun (md : String × Node) fs =>
          processOp spec p md.2 = Except.ok fs) mkvs new ∧
        res = (acc.1 ++ new.map (fun x => x.1),
               acc.2 ++ new.map (fun x => x.2)) := by
  induction mkvs with
  | nil =>
    intro acc res h
    rw [exFoldlM_nil] at h
    injection h with h
    exact ⟨[], .nil, by rw [← h]; simp⟩
  | cons md mkvs ih =>
    intro acc res h
    rw [exFoldlM_cons] at h
    obtain ⟨acc1, hstep, hrest⟩ := exBind_eq_ok h
    unfold opStep at hstep
    obtain ⟨fs, hop, hpure⟩ := exBind_eq_ok hstep
    have hacc1 : acc1 = (acc.1 ++ [fs.1], acc.2 ++ [fs.2]) := by
      simp only [exPure, Except.ok.injEq] at hpure
      exact hpure.symm
    obtain ⟨new, hF, hres⟩ := ih acc1 res hrest
    refine ⟨fs :: new, .cons hop hF, ?_⟩
    rw [hres, hacc1]
    simp [List.append_assoc]

theorem path_fold_spec (spec : Node) (pkvs : List (String × Node)) :
    ∀ acc res, pkvs.foldlM (pathStep spec) acc = .ok res →
      ∃ (opsNew : List (String × String × Node)) (pairs : List (FunctionDesc × Stub)),
        (∀ ops0, pkvs.foldlM collectStep ops0 = .ok (ops0 ++ opsNew)) ∧
        List.Forall₂ (fun (o : String × String × Node) fs =>
          processOp spec o.1 o.2.2 = Except.ok fs) opsNew pairs ∧
        res = (acc.1 ++ pairs.map (fun x => x.1),
               acc.2 ++ pairs.map (fun x => x.2)) := by
  induction pkvs with
  | nil =>
    intro acc res h
    rw [exFoldlM_nil] at h
    injection h with h
    exact ⟨[], [], fun ops0 => by simp [exFoldlM_nil], .nil, by rw [← h]; simp⟩
  | cons pm pkvs ih =>
    intro acc res h
    rw [exFoldlM_cons] at h
    obtain ⟨acc1, hstep, hrest⟩ := exBind_eq_ok h
    unfold pathStep at hstep
    obtain ⟨mkvs, hasobj, hfold⟩ := exBind_eq_ok hstep
    obtain ⟨new, hF, hacc1⟩ := op_fold_spec spec pm.1 mkvs acc acc1 hfold
    obtain ⟨opsNew, pairs, hcol, hF2, hres⟩ := ih acc1 res hrest
    refine ⟨mkvs.map (fun md => (pm.1, md.1, md.2)) ++ opsNew, new ++ pairs,
      ?_, ?_, ?_⟩
    · intro ops0
      rw [exFoldlM_cons]
      have hstep2 : collectStep ops0 pm
          = Except.ok (ops0 ++ mkvs.map (fun md => (pm.1, md.1, md.2))) := by
        unfold collectStep
        rw [hasobj]
        rfl
      rw [hstep2, exBind_ok,
        hcol (ops0 ++ mkvs.map (fun md => (pm.1, md.1, md.2))),
        List.append_assoc]
    · refine List.rel_append ?_ hF2
      rw [List.forall₂_map_left_iff]
      exact hF
    · rw [hres, hacc1]
      simp [List.append_assoc]

/-- C7: the two output lists are parallel and order-preserving — on any
successful run, `functions` and `stubs` have equal length and arise as
the two projections of one list of per-operation results, matched
entrywise (via `processOp`) with the document-traversal-ordered
enumeration `collectOps` of `(path, method, details)` triples. -/
theorem claim7_parallel_outputs (spec : Node) (fns : List FunctionDesc)
    (stubs : List Stub)
    (h : transform_to_openai_format spec = .ok (fns, stubs)) :
    ∃ (ops : List (String × String × Node)) (pairs : List (FunctionDesc × Stub)),
      collectOps spec = .ok ops ∧
      List.Forall₂ (fun (o : String × String × Node) fs =>
        processOp spec o.1 o.2.2 = Except.ok fs) ops pairs ∧
      fns = pairs.map (fun x => x.1) ∧
      stubs = pairs.map (fun x => x.2) ∧
      fns.length = stubs.length := by
  unfold transform_to_openai_format at h
  obtain ⟨pathsN, h1, h⟩ := exBind_eq_ok h
  obtain ⟨pkvs, h2, h⟩ := exBind_eq_ok h
  obtain ⟨opsNew, pairs, hcol, hF, hres⟩ :=
    path_fold_spec spec pkvs ([], []) (fns, stubs) h
  have hfns : fns = pairs.map (fun x => x.1) := by
    have := congrArg Prod.fst hres
    simpa using this
  have hstubs : stubs = pairs.map (fun x => x.2) := by
    have := congrArg Prod.snd hres
    simpa using this
  refine ⟨opsNew, pairs, ?_, hF, hfns, hstubs, ?_⟩
  · unfold collectOps
    rw [h1]
    simp only [exBind_ok]
    rw [h2]
    simp only [exBind_ok]
    simpa using hcol []
  · rw [hfns, hstubs]
    simp

/-- A three-operation document (two methods on one path, one on another)
for the C7 witness. -/
def c7doc : Node := Node.obj [
  ("servers", Node.arr [Node.obj [("url", Node.str "http://s")]]),
  ("paths", Node.obj [
    ("/a", Node.obj [
      ("get", Node.obj [("operationId", Node.str "getA")]),
      ("post", Node.obj [("operationId", Node.str "postA")])]),
    ("/b", Node.obj [
      ("get", Node.obj [("operationId", Node.str "getB")])])])]

/-- The function list `transform_to_openai_format` produces on `c7doc`. -/
def c7fns : List FunctionDesc :=
  [{ name := Node.str "getA", description := Node.str "",
     properties := [], required := [] },
   { name := Node.str "postA", description := Node.str "",
     properties := [], required := [] },
   { name := Node.str "getB", description := Node.str "",
     properties := [], required := [] }]

/-- The stub list `transform_to_openai_format` produces on `c7doc`. -/
def c7stubs : List Stub :=
  [{ funcName := Node.str "getA", pathParams := [], queryParams := [],
     bodyParams := [], serverUrl := Node.str "http://s", path := "/a",
     isPost := false },
   { funcName := Node.str "postA", pathParams := [], queryParams := [],
     bodyParams := [], serverUrl := Node.str "http://s", path := "/a",
     isPost := false },
   { funcName := Node.str "getB", pathParams := [], queryParams := [],
     bodyParams := [], serverUrl := Node.str "http://s", path := "/b",
     isPost := false }]

/-- C7 witness: the parallel-output theorem applied to the concrete
three-operation document. -/
theorem claim7_witness :
    ∃ (ops : List (String × String × Node))
      (pairs : List (FunctionDesc × Stub)),
      collectOps c7doc = .ok ops ∧
      List.Forall₂ (fun (o : String × String × Node) fs =>
        processOp c7doc o.1 o.2.2 = Except.ok fs) ops pairs ∧
      c7fns = pairs.map (fun x => x.1) ∧
      c7stubs = pairs.map (fun x => x.2) ∧
      c7fns.length = c7stubs.length :=
  claim7_parallel_outputs c7doc c7fns c7stubs rfl

/-- A document whose request body reaches its schema only through a
`$ref`: flattening resolves it for the descriptor, but the raw
`application/json` chain of the stub generator sees no `properties`. -/
def c8doc : Node := Node.obj [
  ("servers", Node.arr [Node.obj [("url", Node.str "http://s")]]),
  ("components", Node.obj [("schemas", Node.obj [
    ("Body", Node.obj [("properties", Node.obj [
      ("x", Node.obj [("type", Node.str "string")])])])])]),
  ("paths", Node.obj [
    ("/a", Node.obj [
      ("post", Node.obj [
        ("operationId", Node.str "mk"),
        ("requestBody", Node.obj [("content", Node.obj [
          ("application/json", Node.obj [("schema", Node.obj [
            ("$ref", Node.str "#/components/schemas/Body")])])])])])])])]

/-- The function descriptor the converter emits for `c8doc`'s operation:
the `$ref`-resolved body property `x` is present. -/
def c8fn : FunctionDesc :=
  { name := Node.str "mk", description := Node.str "",
    properties := [(Node.str "x", Node.obj [("type", Node.str "string"),
      ("description", Node.str "")])], required := [] }

/-- The stub the converter emits for `c8doc`'s operation: no body
parameters and a GET, because the raw chain saw only the `$ref`. -/
def c8stub : Stub :=
  { funcName := Node.str "mk", pathParams := [], queryParams := [],
    bodyParams := [], serverUrl := Node.str "http://s", path := "/a",
    isPost := false }

/-- C8: the stub's body-parameter names and its POST-versus-GET choice
come from the raw `application/json` chain (line 98) with no `$ref`
resolution — whenever that raw chain yields the empty dict the stub has
no body parameters and issues a GET (part 1); the chain yields the empty
dict for a `$ref`-only request body (part 2) and for a request body with
only non-JSON content types (part 3); and on `c8doc` the flattened
property `x` still appears in the function descriptor while the stub
stays body-less and GET (part 4). -/
theorem claim8_raw_body_stub :
    (∀ spec path details f s,
      processOp spec path details = .ok (f, s) →
      rawBodyProps details = .ok (Node.obj []) →
      s.bodyParams = [] ∧ s.isPost = false)
    ∧
    (∀ dkvs rkvs,
      lookupStr dkvs "requestBody" = some (Node.obj rkvs) →
      lookupStr rkvs "content" = none →
      rawBodyProps (Node.obj dkvs) = .ok (Node.obj []))
    ∧
    (∀ dkvs rkvs ckvs,
      lookupStr dkvs "requestBody" = some (Node.obj rkvs) →
      lookupStr rkvs "content" = some (Node.obj ckvs) →
      lookupStr ckvs "application/json" = none →
      rawBodyProps (Node.obj dkvs) = .ok (Node.obj []))
    ∧
    (∃ f s, transform_to_openai_format c8doc = .ok ([f], [s]) ∧
      s.bodyParams = [] ∧ s.isPost = false ∧
      pyLookup f.properties (Node.str "x")
        = some (Node.obj [("type", Node.str "string"),
                          ("description", Node.str "")])) := by
  refine ⟨?_, ?_, ?_, ?_⟩
  · intro spec path details f s h hraw
    unfold processOp at h
    obtain ⟨name, h1, h⟩ := exBind_eq_ok h
    obtain ⟨dsc, h2, h⟩ := exBind_eq_ok h
    obtain ⟨hp, h3, h⟩ := exBind_eq_ok h
    obtain ⟨pr, h4, h⟩ := exBind_eq_ok h
    obtain ⟨pr2, h5, h⟩ := exBind_eq_ok h
    obtain ⟨stub, h6, h⟩ := exBind_eq_ok h
    have hs : stub = s := by
      simp only [exPure, Except.ok.injEq, Prod.mk.injEq] at h
      exact h.2
    subst hs
    unfold stubStage at h6
    obtain ⟨fn, g1, h6⟩ := exBind_eq_ok h6
    obtain ⟨params0, g2, h6⟩ := exBind_eq_ok h6
    obtain ⟨plist, g3, h6⟩ := exBind_eq_ok h6
    obtain ⟨pp, g4, h6⟩ := exBind_eq_ok h6
    obtain ⟨qp, g5, h6⟩ := exBind_eq_ok h6
    obtain ⟨rbp, g6, h6⟩ := exBind_eq_ok h6
    rw [hraw] at g6
    injection g6 with g6
    subst g6
    obtain ⟨rbkvs, g7, h6⟩ := exBind_eq_ok h6
    have hrbkvs : rbkvs = [] := by
      simp only [Node.asObj, Except.ok.injEq] at g7
      exact g7.symm
    subst hrbkvs
    obtain ⟨ppS, g8, h6⟩ := exBind_eq_ok h6
    obtain ⟨qpS, g9, h6⟩ := exBind_eq_ok h6
    obtain ⟨servers, g10, h6⟩ := exBind_eq_ok h6
    obtain ⟨s0, g11, h6⟩ := exBind_eq_ok h6
    obtain ⟨url, g12, h6⟩ := exBind_eq_ok h6
    simp only [exPure, Except.ok.injEq] at h6
    rw [← h6]
    exact ⟨rfl, rfl⟩
  · intro dkvs rkvs hrb hnc
    simp [rawBodyProps, Node.dictGet, hrb, hnc, lookupStr]
  · intro dkvs rkvs ckvs hrb hc haj
    simp [rawBodyProps, Node.dictGet, hrb, hc, haj, lookupStr]
  · exact ⟨c8fn, c8stub, rfl, rfl, rfl, rfl⟩

/-- The details node of `c8doc`'s single operation. -/
def c8details : Node := Node.obj [
  ("operationId", Node.str "mk"),
  ("requestBody", Node.obj [("content", Node.obj [
    ("application/json", Node.obj [("schema", Node.obj [
      ("$ref", Node.str "#/components/schemas/Body")])])])])]

/-- C8 witness: the raw-chain theorem applied at concrete inputs — the
`c8doc` operation produces a body-less GET stub, and both a `$ref`-only
request body and a non-JSON-only request body collapse the raw chain to
the empty dict. -/
theorem claim8_witness :
    (c8stub.bodyParams = [] ∧ c8stub.isPost = false) ∧
    rawBodyProps (Node.obj [("requestBody",
        Node.obj [("$ref", Node.str "#/x")])])
      = .ok (Node.obj []) ∧
    rawBodyProps (Node.obj [("requestBody", Node.obj [("content",
        Node.obj [("text/plain", Node.obj [])])])])
      = .ok (Node.obj []) := by
  refine ⟨?_, ?_, ?_⟩
  · exact claim8_raw_body_stub.1 c8doc "/a" c8details c8fn c8stub rfl rfl
  · exact claim8_raw_body_stub.2.1
      [("requestBody", Node.obj [("$ref", Node.str "#/x")])]
      [("$ref", Node.str "#/x")] rfl rfl
  · exact claim8_raw_body_stub.2.2.1
      [("requestBody", Node.obj [("content",
        Node.obj [("text/plain", Node.obj [])])])]
      [("content", Node.obj [("text/plain", Node.obj [])])]
      [("text/plain", Node.obj [])] rfl rfl rfl

/-- A document whose only parameter is given as a `$ref` in the raw
parameter list; resolution puts `limit` into the descriptor, while the
stub filters (which read the raw objects) see neither `in` nor `name`. -/
def c10doc : Node := Node.obj [
  ("servers", Node.arr [Node.obj [("url", Node.str "http://s")]]),
  ("components", Node.obj [("parameters", Node.obj [
    ("Limit", Node.obj [("name", Node.str "limit"), ("in", Node.str "query"),
      ("schema", Node.obj [("type", Node.str "integer")])])])]),
  ("paths", Node.obj [("/a", Node.obj [("get", Node.obj [
    ("operationId", Node.str "listA"),
    ("parameters", Node.arr [Node.obj [
      ("$ref", Node.str "#/components/parameters/Limit")]])])])])]

/-- The descriptor emitted for `c10doc`'s operation: the resolved
parameter `limit` is present. -/
def c10fn : FunctionDesc :=
  { name := Node.str "listA", description := Node.str "",
    properties := [(Node.str "limit", Node.obj [("type", Node.str "integer"),
      ("description", Node.str "")])], required := [] }

/-- The stub emitted for `c10doc`'s operation: no path or query
parameters survive the raw-object filters. -/
def c10stub : Stub :=
  { funcName := Node.str "listA", pathParams := [], queryParams := [],
    bodyParams := [], serverUrl := Node.str "http://s", path := "/a",
    isPost := false }

/-- C10: a parameter expressed as a `$ref` never appears in the stub's
signature — the stub's path/query filters read `in` (and would then read
`name`) from the raw, unresolved parameter object, and any mapping
without an `in` key contributes nothing (part 1); yet on `c10doc` the
same parameter, once resolved, does appear in the function descriptor's
properties while both stub filter results are empty (part 2). -/
theorem claim10_ref_param_stub :
    (∀ inKind acc kvs,
      lookupStr kvs "in" = none →
      stubFilterStep inKind acc (Node.obj kvs) = .ok acc)
    ∧
    (∃ f s, transform_to_openai_format c10doc = .ok ([f], [s]) ∧
      s.pathParams = [] ∧ s.queryParams = [] ∧
      pyLookup f.properties (Node.str "limit")
        = some (Node.obj [("type", Node.str "integer"),
                          ("description", Node.str "")])) := by
  constructor
  · intro inKind acc kvs h
    simp [stubFilterStep, Node.getOpt, h]
  · exact ⟨c10fn, c10stub, rfl, rfl, rfl, rfl⟩

/-- C10 witness: the filter-step theorem applied to a concrete raw
`$ref`-only parameter object. -/
theorem claim10_witness :
    stubFilterStep "path" [] (Node.obj [("$ref", Node.str "#/x")]) = .ok []
      ∧
    stubFilterStep "query" [] (Node.obj [("$ref", Node.str "#/x")]) = .ok [] :=
  ⟨claim10_ref_param_stub.1 "path" [] [("$ref", Node.str "#/x")] rfl,
   claim10_ref_param_stub.1 "query" [] [("$ref", Node.str "#/x")] rfl⟩

end OpenApiConv
